import Mathlib

namespace ScheduleAI

/-- Model of a JavaScript/JSON value as it flows out of JSON.parse and through the
normalizer. The fragment covers null, booleans, numbers (the integer fragment,
exact for every numeric value the pipeline and its claims exercise), strings
and arrays; objects other than the activity records themselves are not needed
by any claim and are omitted. -/
inductive JVal where
  | jnull
  | jbool (b : Bool)
  | jnum (q : Int)
  | jstr (s : String)
  | jarr (elems : List JVal)
deriving Repr

/-- JavaScript truthiness of a value: null, 0, NaN and the empty string are falsy;
booleans are themselves; arrays (objects) are always truthy. -/
def JVal.truthy : JVal → Bool
  | .jnull => false
  | .jbool b => b
  | .jnum q => q != 0
  | .jstr s => s != ""
  | .jarr _ => true

/-- Truthiness of an optional value; a missing field (undefined) is falsy. -/
def truthyOpt : Option JVal → Bool
  | none => false
  | some v => v.truthy

def digitsToNat (ds : List Char) : ℕ :=
  ds.foldl (fun acc c => acc * 10 + (c.toNat - 48)) 0

/-- Decimal digit-run parser used by the Number() model: one or more digits.
Fractional, exponent, hexadecimal and Infinity forms are outside the modelled
integer fragment and yield NaN. -/
def parseDecCore (l : List Char) : Option Int :=
  if l ≠ [] ∧ l.all Char.isDigit then some ((digitsToNat l : ℕ) : Int) else none

def isJsWhitespace (c : Char) : Bool :=
  c = ' ' || c = '\t' || c = '\n' || c = '\r'

/-- JavaScript Number(string): whitespace is trimmed, the empty string is 0,
otherwise a signed decimal literal; anything else is NaN (modelled as none). -/
def parseJsNumber (s : String) : Option Int :=
  let t := ((s.toList.dropWhile isJsWhitespace).reverse.dropWhile isJsWhitespace).reverse
  if t = [] then some 0
  else
    match t with
    | '-' :: rest => (parseDecCore rest).map (fun q => -q)
    | '+' :: rest => parseDecCore rest
    | l => parseDecCore l

/-- JavaScript Number() coercion; none stands for NaN. On a one-element array the
coercion goes through the element (join-based string conversion), a boolean
element stringifies to a non-numeric word, and longer arrays join with commas
into non-numeric text. -/
def jvalToNumber : JVal → Option Int
  | .jnull => some 0
  | .jbool b => some (if b then 1 else 0)
  | .jnum q => some q
  | .jstr s => parseJsNumber s
  | .jarr [] => some 0
  | .jarr [.jbool _] => none
  | .jarr [v] => jvalToNumber v
  | .jarr (_ :: _ :: _) => none

/-- Number() applied to a possibly missing field; Number(undefined) is NaN. -/
def toNumberOpt : Option JVal → Option Int
  | none => none
  | some v => jvalToNumber v

/-- The JavaScript expression a || b on possibly missing values: the first operand
when truthy, otherwise the second. -/
def jsOr (a b : Option JVal) : Option JVal :=
  if truthyOpt a then a else b

/-- The JavaScript expression a || d with a known (always defined) default. -/
def jsOrD (a : Option JVal) (d : JVal) : JVal :=
  match a with
  | some v => if v.truthy then v else d
  | none => d

/-- The pattern Number(v) || d used throughout the normalizer: the numeric
coercion of v unless that is 0 or NaN, in which case the default d. -/
def numOr (v : Option JVal) (d : Int) : Int :=
  match toNumberOpt v with
  | none => d
  | some q => if q = 0 then d else q

/-- The pattern Array.isArray(v) ? v : [] used for predecessors and successors. -/
def jsArr : Option JVal → List JVal
  | some (.jarr l) => l
  | _ => []

/-! ### Date model

Dates are modelled as milliseconds since the Unix epoch (integers, exact for
the integral time values this pipeline manipulates), with the host clock and a
UTC local timezone as parameters of the embedding. String to date conversion
covers the date-only ISO form YYYY-MM-DD that the pipeline itself produces; all
other strings are treated as an invalid date. -/

/-- Conversion of a civil date to days since the Unix epoch (proleptic Gregorian). -/
def daysFromCivil (y m d : Int) : Int :=
  let yy := y - (if m ≤ 2 then 1 else 0)
  let era := yy / 400
  let yoe := yy - era * 400
  let mp := m + (if 2 < m then -3 else 9)
  let doy := (153 * mp + 2) / 5 + d - 1
  let doe := yoe * 365 + yoe / 4 - yoe / 100 + doy
  era * 146097 + doe - 719468

/-- Conversion of days since the Unix epoch back to a civil date (year, month, day). -/
def civilFromDays (z0 : Int) : Int × Int × Int :=
  let z := z0 + 719468
  let era := z / 146097
  let doe := z - era * 146097
  let yoe := (doe - doe / 1460 + doe / 36524 - doe / 146096) / 365
  let y := yoe + era * 400
  let doy := doe - (365 * yoe + yoe / 4 - yoe / 100)
  let mp := (5 * doy + 2) / 153
  let d := doy - (153 * mp + 2) / 5 + 1
  let m := mp + (if mp < 10 then 3 else -9)
  (y + (if m ≤ 2 then 1 else 0), m, d)

def isLeapYear (y : Int) : Bool :=
  (y % 4 = 0 && y % 100 != 0) || y % 400 = 0

def daysInMonth (y m : Int) : Int :=
  if m = 2 then (if isLeapYear y then 29 else 28)
  else if m = 4 ∨ m = 6 ∨ m = 9 ∨ m = 11 then 30
  else 31

/-- Parse the ISO date-only form YYYY-MM-DD to days since the epoch, rejecting
out-of-range months and days exactly as the host date parser does. -/
def parseIsoDate (s : String) : Option Int :=
  match s.toList with
  | [y1, y2, y3, y4, h1, m1, m2, h2, d1, d2] =>
    if h1 = '-' ∧ h2 = '-' ∧ [y1, y2, y3, y4, m1, m2, d1, d2].all Char.isDigit then
      let y : Int := (digitsToNat [y1, y2, y3, y4] : ℕ)
      let m : Int := (digitsToNat [m1, m2] : ℕ)
      let d : Int := (digitsToNat [d1, d2] : ℕ)
      if 1 ≤ m ∧ m ≤ 12 ∧ 1 ≤ d ∧ d ≤ daysInMonth y m then some (daysFromCivil y m d)
      else none
    else none
  | _ => none

/-- The maximal absolute time value a date can hold (ECMA TimeClip bound). -/
def msLimit : Int := 8640000000000000

/-- ECMA TimeClip on integral time values: reject the value when out of range
(an out-of-range value makes the date invalid, modelled as none). -/
def timeClip (q : Int) : Option Int :=
  if -msLimit ≤ q ∧ q ≤ msLimit then some q else none

/-- Model of new Date(v): strings go through the (ISO fragment) date parser; a
one-element array stringifies to its element first; other values coerce through
Number and TimeClip. The result none is an invalid date. -/
def jsNewDate : JVal → Option Int
  | .jstr s => (parseIsoDate s).map (fun d => d * 86400000)
  | .jarr [.jstr s] => (parseIsoDate s).map (fun d => d * 86400000)
  | .jarr _ => none
  | v => (jvalToNumber v).bind timeClip

/-- Model of d.setDate(d.getDate() + dt) on a valid date with time value ms,
under a UTC local timezone: re-derive the civil date, move the day-of-month by
dt, and clip. The result none is a date that became invalid. -/
def jsSetDatePlus (ms : Int) (dt : Int) : Option Int :=
  let day := ms / 86400000
  let tw := ms - day * 86400000
  let c := civilFromDays day
  timeClip (((daysFromCivil c.1 c.2.1 1 - 1) + c.2.2 + dt) * 86400000 + tw)

def padNum (w : ℕ) (n : ℕ) : String :=
  let s := toString n
  if s.length ≥ w then s else String.mk (List.replicate (w - s.length) '0') ++ s

/-- Format a civil date as the toISOString date part YYYY-MM-DD (years outside
0..9999 use the signed six-digit extended form). -/
def formatCivilDate : Int × Int × Int → String
  | (y, m, d) =>
    let ys := if 0 ≤ y ∧ y ≤ 9999 then padNum 4 y.toNat
              else if y < 0 then "-" ++ padNum 6 (-y).toNat
              else "+" ++ padNum 6 y.toNat
    ys ++ "-" ++ padNum 2 m.toNat ++ "-" ++ padNum 2 d.toNat

/-- The date part of toISOString for a valid time value. -/
def isoDatePart (ms : Int) : String :=
  formatCivilDate (civilFromDays (ms / 86400000))

/-- Model of new Date(ms).toISOString().split(T)[0]: none when the time value is
out of range, in which case toISOString throws a RangeError. -/
def isoDatePartChecked (ms : Int) : Option String :=
  (timeClip ms).map isoDatePart

/-- The finish date computation of the normalizer: build a date from the start
value, move its day-of-month forward by the duration, and take the ISO date
part; none is the path on which toISOString throws. -/
def finishDateISO (sd : JVal) (dur : Int) : Option String :=
  (jsNewDate sd).bind (fun ms => (jsSetDatePlus ms dur).map isoDatePart)

/-! ### Schedule pipeline data model

The pipeline boundary types, translated from the schedule generation module.
The request carries only the field the modelled stages read (startDate); prompt
assembly and document upload happen before the remote invocation, which enters
the model as an outcome parameter. Raw activities are the JSON objects the
extraction cascade hands to the normalizer, projected onto the keys the code
reads or writes; absent keys are none (undefined). -/

structure ScheduleAIRequest where
  startDate : Option String := none

structure RawActivity where
  activityId : Option JVal := none
  name : Option JVal := none
  activityName : Option JVal := none
  originalDuration : Option JVal := none
  duration : Option JVal := none
  remainingDuration : Option JVal := none
  earlyStart : Option JVal := none
  startDate : Option JVal := none
  finishDate : Option JVal := none
  predecessors : Option JVal := none
  successors : Option JVal := none
  status : Option JVal := none
  percentComplete : Option JVal := none
  totalFloat : Option JVal := none
  freeFloat : Option JVal := none
  isCritical : Option JVal := none
  wbs : Option JVal := none
  resources : Option JVal := none
  type : Option JVal := none

/-- A parsed top-level result object. The activities field, when present, is
modelled as an array of activity objects (the shape every claim exercises). -/
structure RawResult where
  activities : Option (List RawActivity) := none
  summary : Option JVal := none
  recommendations : Option JVal := none

/-- An activity object as built by the pipeline for the frontend: the union of
the fields written by the normalizer and by the demo fallback, optional where
only one of the two shapes writes them. -/
structure ActivityOut where
  id : String
  activityId : JVal
  activityName : JVal
  name : Option JVal := none
  duration : Int
  originalDuration : Option Int := none
  remainingDuration : Option Int := none
  durationUnit : Option String := none
  startDate : JVal
  finishDate : String
  earlyStart : Option JVal := none
  earlyFinish : Option JVal := none
  lateStart : Option Int := none
  lateFinish : Option Int := none
  predecessors : List JVal
  successors : List JVal
  status : JVal
  percentComplete : Int
  totalFloat : Int
  freeFloat : Int
  isCritical : Bool
  wbs : JVal
  resources : JVal
  type : Option String := none
  actualStart : Option JVal := none
  actualFinish : Option JVal := none
  constraintType : Option JVal := none
  constraintDate : Option JVal := none
  responsibility : Option JVal := none
  trade : Option JVal := none

structure ScheduleAIResponse where
  activities : List ActivityOut
  summary : JVal
  criticalPath : List JVal
  recommendations : JVal

/-! ### Response recovery and normalization (variant without document triage) -/

/-- The start value chosen by the normalizer: the first truthy among the raw
earlyStart, the raw startDate, the request startDate, defaulting to the current
date (the clock enters as the today parameter). -/
def startDateStrOf (req : ScheduleAIRequest) (today : String) (a : RawActivity) : JVal :=
  jsOrD (jsOr (jsOr a.earlyStart a.startDate) (req.startDate.map JVal.jstr)) (.jstr today)

/-- Duration coercion of the normalizer: Number(originalDuration || duration)
with 5 substituted for NaN and 0. -/
def coerceDuration (a : RawActivity) : Int :=
  numOr (jsOr a.originalDuration a.duration) 5

/-- The activity record the normalizer returns, given the computed finish date.
Every field is translated from the object literal in processScheduleResult. -/
def normalizedActivity (req : ScheduleAIRequest) (today : String) (uuid : String)
    (index : ℕ) (a : RawActivity) (fin : String) : ActivityOut :=
  let duration := coerceDuration a
  let startDateStr := startDateStrOf req today a
  { id := uuid
    activityId := jsOrD a.activityId (.jstr ("A" ++ padNum 3 index))
    activityName := jsOrD (jsOr a.name a.activityName) (.jstr "Unnamed Activity")
    name := some (jsOrD (jsOr a.name a.activityName) (.jstr "Unnamed Activity"))
    duration := duration
    originalDuration := some duration
    remainingDuration := some duration
    durationUnit := some "days"
    startDate := startDateStr
    finishDate := fin
    earlyStart := some startDateStr
    earlyFinish := some (.jstr fin)
    predecessors := jsArr a.predecessors
    successors := jsArr a.successors
    status := jsOrD a.status (.jstr "NotStarted")
    percentComplete := numOr a.percentComplete 0
    totalFloat := numOr a.totalFloat 0
    freeFloat := numOr a.freeFloat 0
    isCritical := truthyOpt a.isCritical
    wbs := jsOrD a.wbs (.jstr ("1." ++ toString (index + 1)))
    resources := jsOrD a.resources (.jarr [])
    type := some "Task"
    actualStart := some .jnull
    actualFinish := some .jnull
    constraintType := some .jnull
    constraintDate := some .jnull
    responsibility := some .jnull
    trade := some .jnull }

/-- Per-activity normalization, from processScheduleResult. The uuid argument is
the fresh crypto.randomUUID() value for this activity; none is the path on
which the finish date computation throws on an invalid date. -/
def normalizeActivity (req : ScheduleAIRequest) (today : String) (uuid : String)
    (index : ℕ) (a : RawActivity) : Option ActivityOut :=
  (finishDateISO (startDateStrOf req today a) (coerceDuration a)).map
    (normalizedActivity req today uuid index a)

/-- Normalization of the whole activity array, threading the positional index
and the uuid supply; none as soon as one activity throws. -/
def normalizeList (req : ScheduleAIRequest) (today : String) (uuids : ℕ → String) :
    ℕ → List RawActivity → Option (List ActivityOut)
  | _, [] => some []
  | i, a :: rest => do
    let na ← normalizeActivity req today (uuids i) i a
    let tl ← normalizeList req today uuids (i + 1) rest
    pure (na :: tl)

/-- Model of processScheduleResult: normalize every raw activity, then build the
summary, the critical path (the ordered ids of the activities whose isCritical
flag is set) and the recommendations. none is the path on which the JS code
throws. -/
def processScheduleResult (result : RawResult) (req : ScheduleAIRequest)
    (uuids : ℕ → String) (today : String) : Option ScheduleAIResponse :=
  match normalizeList req today uuids 0 (result.activities.getD []) with
  | none => none
  | some acts =>
    some {
      activities := acts
      summary := jsOrD result.summary
        (.jstr ("Generated " ++ toString acts.length ++ " activities"))
      criticalPath := (acts.filter (fun a => a.isCritical)).map (fun a => a.activityId)
      recommendations := jsOrD result.recommendations (.jarr []) }

/-! ### Normalization in the triage-integrated variant

The second orchestrator variant normalizes identically except for the status
field, which it maps through an explicit chain of strict string comparisons. -/

/-- The status mapping of the triage-integrated variant: the three spaced forms
map to themselves, the unspaced synonyms map to their spaced forms, and every
other value falls through to Not Started. -/
def normalizeStatusV2 : Option JVal → String
  | some (.jstr "Not Started") => "Not Started"
  | some (.jstr "In Progress") => "In Progress"
  | some (.jstr "Completed") => "Completed"
  | some (.jstr "NotStarted") => "Not Started"
  | some (.jstr "InProgress") => "In Progress"
  | _ => "Not Started"

/-- Per-activity normalization of the triage-integrated variant: identical to
normalizeActivity except that the status is computed by normalizeStatusV2. -/
def normalizeActivityTriage (req : ScheduleAIRequest) (today : String) (uuid : String)
    (index : ℕ) (a : RawActivity) : Option ActivityOut :=
  (normalizeActivity req today uuid index a).map
    (fun na => { na with status := JVal.jstr (normalizeStatusV2 a.status) })

/-! ### Fixed fallback (demo) schedule and last-resort line extraction -/

/-- The response object literal of the demo fallback, as a function of the
computed start and finish date strings. Field values are translated from the
demoActivities literal in the inner catch block. -/
def demoResponse (uuids : ℕ → String) (startStr fin1 fin2 fin3 : String) :
    ScheduleAIResponse :=
  { activities := [
      { id := uuids 0
        activityId := .jstr "A001"
        activityName := .jstr "Site Preparation"
        duration := 5
        startDate := .jstr startStr
        finishDate := fin1
        predecessors := []
        successors := [.jstr "A002"]
        status := .jstr "NotStarted"
        percentComplete := 0
        earlyStart := some (.jnum 0)
        earlyFinish := some (.jnum 5)
        lateStart := some 0
        lateFinish := some 5
        totalFloat := 0
        freeFloat := 0
        isCritical := true
        wbs := .jstr "1.1"
        resources := .jarr [.jstr "Crew A"] },
      { id := uuids 1
        activityId := .jstr "A002"
        activityName := .jstr "Foundation Work"
        duration := 10
        startDate := .jstr fin1
        finishDate := fin2
        predecessors := [.jstr "A001"]
        successors := [.jstr "A003"]
        status := .jstr "NotStarted"
        percentComplete := 0
        earlyStart := some (.jnum 5)
        earlyFinish := some (.jnum 15)
        lateStart := some 5
        lateFinish := some 15
        totalFloat := 0
        freeFloat := 0
        isCritical := true
        wbs := .jstr "1.2"
        resources := .jarr [.jstr "Crew B"] },
      { id := uuids 2
        activityId := .jstr "A003"
        activityName := .jstr "Structure Assembly"
        duration := 15
        startDate := .jstr fin2
        finishDate := fin3
        predecessors := [.jstr "A002"]
        successors := []
        status := .jstr "NotStarted"
        percentComplete := 0
        earlyStart := some (.jnum 15)
        earlyFinish := some (.jnum 30)
        lateStart := some 15
        lateFinish := some 30
        totalFloat := 0
        freeFloat := 0
        isCritical := true
        wbs := .jstr "1.3"
        resources := .jarr [.jstr "Crew C"] } ]
    summary := .jstr "Demo schedule generated (AI service temporarily unavailable)"
    criticalPath := [.jstr "A001", .jstr "A002", .jstr "A003"]
    recommendations := .jarr [.jstr "This is a demo schedule. The AI service is currently unavailable. Please check your POE API key in environment variables."] }

/-- The date computations of the demo fallback, given the truthiness-filtered
request start date (JavaScript request.startDate when truthy, none otherwise). -/
def demoScheduleFrom (uuids : ℕ → String) (nowMs : Int) (sOpt : Option String) :
    Option ScheduleAIResponse := do
  let baseMs : Option Int :=
    match sOpt with
    | some s => (parseIsoDate s).map (fun d => d * 86400000)
    | none => some nowMs
  let startStr ← match sOpt with
    | some s => some s
    | none => isoDatePartChecked nowMs
  let shifted : Int → Option String := fun days =>
    match baseMs with
    | some ms => isoDatePartChecked (ms + days * 86400000)
    | none => none
  let fin1 ← shifted 5
  let fin2 ← shifted 15
  let fin3 ← shifted 30
  pure (demoResponse uuids startStr fin1 fin2 fin3)

/-- The demo fallback schedule built when the remote invocation fails: three
fixed activities chained finish-to-start. Date fields derive from the request
start date (or the clock); none is the path on which a date computation throws
because the request start date does not parse as a date. -/
def demoSchedule (req : ScheduleAIRequest) (uuids : ℕ → String) (nowMs : Int) :
    Option ScheduleAIResponse :=
  demoScheduleFrom uuids nowMs
    (match req.startDate with
     | some s => if s = "" then none else some s
     | none => none)

/-- Positional map, the model of Array.prototype.map with its index argument. -/
def mapWithIndex (f : ℕ → α → β) : ℕ → List α → List β
  | _, [] => []
  | i, a :: rest => f i a :: mapWithIndex f (i + 1) rest

/-- Single-character string split on a list of characters. -/
def splitOnChar (sep : Char) : List Char → List (List Char)
  | [] => [[]]
  | c :: rest =>
    let r := splitOnChar sep rest
    if c = sep then [] :: r
    else
      match r with
      | [] => [[c]]
      | h :: t => (c :: h) :: t

/-- Model of String.prototype.split at a one-character separator. -/
def jsSplit (s : String) (sep : Char) : List String :=
  (splitOnChar sep s.toList).map (fun l => String.mk l)

/-- Substring test, the model of String.prototype.includes. -/
def containsSubstr (hay needle : String) : Bool :=
  (List.range (hay.toList.length + 1)).any
    (fun i => needle.toList.isPrefixOf (hay.toList.drop i))

/-- The fixed-shape activity record the last-resort extractor builds at a given
position. -/
def fallbackActivity (index : ℕ) : RawActivity :=
  { activityId := some (.jstr ("A" ++ padNum 3 index))
    name := some (.jstr ("Activity " ++ toString (index + 1)))
    originalDuration := some (.jnum 5)
    remainingDuration := some (.jnum 5)
    predecessors := some (.jarr (if 0 < index then [.jstr ("A" ++ padNum 3 (index - 1))] else []))
    status := some (.jstr "NotStarted")
    percentComplete := some (.jnum 0)
    type := some (.jstr "Task")
    totalFloat := some (.jnum 0)
    freeFloat := some (.jnum 0)
    isCritical := some (.jbool (index == 0)) }

/-- Model of extractFallbackScheduleData: keep the lines that look activity
related, cap them at 20, and rebuild positional fixed-shape activities; null
(none) when no such line exists. -/
def extractFallbackScheduleData (content : String) : Option RawResult :=
  let activityLines := (jsSplit content '\n').filter (fun line =>
    containsSubstr line "activityId" || containsSubstr line "Activity" ||
    containsSubstr line "duration" || containsSubstr line "predecessors")
  if activityLines.length > 0 then
    some { activities := some (mapWithIndex (fun i _ => fallbackActivity i) 0 (activityLines.take 20))
           summary := some (.jstr "Generated from fallback parsing")
           recommendations := some (.jarr []) }
  else none

/-! ### Orchestrator boundary -/

structure PoeMessage where
  content : Option String

structure PoeChoice where
  message : PoeMessage

structure PoeResponse where
  choices : List PoeChoice

/-- The diagnostic empty result returned when both the parse cascade and the
line extractor fail. -/
def parseFailedResponse (content : String) : ScheduleAIResponse :=
  { activities := []
    summary := .jstr ("AI response parsing failed. Response length: " ++
      toString content.length ++
      " chars. This may be due to the AI model returning an unexpected format. Try using a different model like Claude-Sonnet-4 or GPT-4o.")
    criticalPath := []
    recommendations := .jarr [
      .jstr "Try using Claude-Sonnet-4 or GPT-4o for better JSON formatting",
      .jstr "Check if the selected AI model supports structured output"] }

/-- The flow taken when the cascade yields nothing usable: try the line
extractor, then fall back to the diagnostic empty result. A none from
processScheduleResult is the JS throw, caught and rethrown by the outer catch. -/
def recoverOrDiagnose (content : String) (req : ScheduleAIRequest)
    (uuids : ℕ → String) (today : String) : Except String ScheduleAIResponse :=
  match extractFallbackScheduleData content with
  | some fr =>
    match processScheduleResult fr req uuids today with
    | some r => .ok r
    | none => .error "Failed to generate schedule"
  | none => .ok (parseFailedResponse content)

/-- Model of generateScheduleWithAI past prompt assembly. The remote invocation
enters as an outcome (the settled value of the race between the API call and
the timeout); the extraction cascade parseAIScheduleResponse wraps the host
JSON.parse and regex engine and enters as the parseResponse parameter; the
clock and the uuid generator are the remaining host parameters. An .error value
is the exception the outer catch rethrows to the caller. -/
def generateScheduleWithAI (req : ScheduleAIRequest) (invoke : Except Unit PoeResponse)
    (parseResponse : String → Option RawResult) (uuids : ℕ → String) (nowMs : Int) :
    Except String ScheduleAIResponse :=
  match invoke with
  | .error _ =>
    match demoSchedule req uuids nowMs with
    | some r => .ok r
    | none => .error "Failed to generate schedule"
  | .ok response =>
    match response.choices.head? with
    | none => .error "Failed to generate schedule"
    | some choice =>
      let content :=
        match choice.message.content with
        | some s => if s = "" then "\x7b\x7d" else s
        | none => "\x7b\x7d"
      let today := isoDatePart nowMs
      match parseResponse content with
      | some result =>
        match result.activities with
        | some (_ :: _) =>
          match processScheduleResult result req uuids today with
          | some r => .ok r
          | none => .error "Failed to generate schedule"
        | _ => recoverOrDiagnose content req uuids today
      | none => recoverOrDiagnose content req uuids today

/-! ### Document triage engine (documentAnalyzer) -/

structure DocumentSection where
  id : String
  title : String
  content : String
  relevanceScore : ℕ
  category : String
  tokens : ℕ
  keywords : List String
  isSelected : Bool

structure KeyInformation where
  contractDuration : Option String := none
  projectType : Option String := none
  startDate : Option String := none
  endDate : Option String := none
  milestones : List String := []
  constraints : List String := []

structure DocumentAnalysis where
  fileName : String
  filePath : String
  totalSize : ℕ
  totalTokens : ℕ
  sections : List DocumentSection
  keyInformation : KeyInformation := {}

inductive ProcessingMode where
  | quick
  | standard
  | deep
  | custom

structure ProcessingOptions where
  mode : ProcessingMode
  selectedSections : Option (List String) := none
  maxTokens : Option ℕ := none

/-- Token estimate: Math.ceil(text.length / 4). -/
def estimateTokens (text : String) : ℕ :=
  (text.length + 3) / 4

/-- The final sort of splitIntoSections: a stable sort under the comparator
(a, b) => b.relevanceScore - a.relevanceScore, i.e. descending relevance. -/
def sortSections (sections : List DocumentSection) : List DocumentSection :=
  sections.mergeSort (fun a b => decide (b.relevanceScore ≤ a.relevanceScore))

/-- Model of processContentWithOptions: select section contents by mode, join
them with blank lines, and apply the optional word-level token ceiling. -/
def processContentWithOptions (analysis : DocumentAnalysis)
    (options : ProcessingOptions) : String :=
  let contentToProcess :=
    match options.mode with
    | .quick =>
      String.intercalate "\n\n"
        ((analysis.sections.filter (fun s => 50 < s.relevanceScore)).map (fun s => s.content))
    | .standard =>
      String.intercalate "\n\n"
        ((analysis.sections.filter (fun s => s.isSelected)).map (fun s => s.content))
    | .deep =>
      String.intercalate "\n\n" (analysis.sections.map (fun s => s.content))
    | .custom =>
      String.intercalate "\n\n"
        ((analysis.sections.filter
          (fun s => (options.selectedSections.getD []).contains s.id)).map (fun s => s.content))
  let truncate :=
    match options.maxTokens with
    | some k => decide (0 < k) && decide (k < estimateTokens contentToProcess)
    | none => false
  if truncate then
    let words := jsSplit contentToProcess ' '
    let targetWords := options.maxTokens.getD 0 * 3 / 4
    String.intercalate " " (words.take targetWords) ++ "... [Content truncated to fit token limit]"
  else contentToProcess

/-! ### Feeding a produced response back into normalization

A produced activity object, read again as a raw JSON object (the identity in
JavaScript, made explicit here by the typed embedding), and a produced response
read again as a parsed result object. These are used to state idempotence of
the normalization step. -/

def rawOfOut (a : ActivityOut) : RawActivity :=
  { activityId := some a.activityId
    name := a.name
    activityName := some a.activityName
    originalDuration := a.originalDuration.map JVal.jnum
    duration := some (.jnum a.duration)
    remainingDuration := a.remainingDuration.map JVal.jnum
    earlyStart := a.earlyStart
    startDate := some a.startDate
    finishDate := some (.jstr a.finishDate)
    predecessors := some (.jarr a.predecessors)
    successors := some (.jarr a.successors)
    status := some a.status
    percentComplete := some (.jnum a.percentComplete)
    totalFloat := some (.jnum a.totalFloat)
    freeFloat := some (.jnum a.freeFloat)
    isCritical := some (.jbool a.isCritical)
    wbs := some a.wbs
    resources := some a.resources
    type := a.type.map JVal.jstr }

def responseToResult (r : ScheduleAIResponse) : RawResult :=
  { activities := some (r.activities.map rawOfOut)
    summary := some r.summary
    recommendations := some r.recommendations }

/-! ### Concrete inputs used by witnesses and counterexamples -/

/-- A raw activity carrying an explicit isCritical flag together with a nonzero
total float. -/
def rawCriticalFloat : RawActivity :=
  { activityId := some (.jstr "A001")
    startDate := some (.jstr "2025-01-01")
    originalDuration := some (.jnum 5)
    isCritical := some (.jbool true)
    totalFloat := some (.jnum 5) }

/-- A raw activity whose only predecessor entry references an id that no
activity of the batch carries. -/
def rawDangling : RawActivity :=
  { activityId := some (.jstr "A001")
    startDate := some (.jstr "2025-01-01")
    originalDuration := some (.jnum 5)
    predecessors := some (.jarr [.jstr "A999"]) }

/-- A raw activity with a negative numeric duration. -/
def rawNegativeDuration : RawActivity :=
  { activityId := some (.jstr "A001")
    startDate := some (.jstr "2025-01-01")
    originalDuration := some (.jnum (-3)) }

/-- A raw activity supplying an explicit finish date later than its start date. -/
def rawExplicitFinish : RawActivity :=
  { activityId := some (.jstr "A001")
    startDate := some (.jstr "2025-01-01")
    originalDuration := some (.jnum 5)
    finishDate := some (.jstr "2025-03-01") }

/-- A plain raw activity used to exercise idempotence. -/
def rawPlain : RawActivity :=
  { activityId := some (.jstr "A001")
    name := some (.jstr "Mobilize")
    startDate := some (.jstr "2025-01-01")
    originalDuration := some (.jnum 5) }

/-- A default empty response value used to spell concrete results. -/
def emptyResponse : ScheduleAIResponse :=
  { activities := [], summary := .jnull, criticalPath := [], recommendations := .jnull }

/-- A constant uuid supply standing for one possible sequence of
crypto.randomUUID() draws. -/
def uuidConst : ℕ → String := fun _ => "u"

/-- A second, distinct uuid supply for a later sequence of draws. -/
def uuidOne : ℕ → String := fun _ => "uuid-one"

def uuidTwo : ℕ → String := fun _ => "uuid-two"

def reqEmpty : ScheduleAIRequest := {}

def reqJan : ScheduleAIRequest := { startDate := some "2025-01-01" }

def resultCriticalFloat : RawResult := { activities := some [rawCriticalFloat] }

def resultDangling : RawResult := { activities := some [rawDangling] }

def resultNegative : RawResult := { activities := some [rawNegativeDuration] }

def resultExplicitFinish : RawResult := { activities := some [rawExplicitFinish] }

def resultPlain : RawResult := { activities := some [rawPlain] }

/-- The concrete normalized response for a given concrete parsed result, under
the constant uuid supply and a fixed clock date. -/
def respOf (result : RawResult) : ScheduleAIResponse :=
  (processScheduleResult result reqEmpty uuidConst "2025-02-02").getD emptyResponse

/-- The concrete normalized response of resultPlain under the first uuid supply. -/
def respPlainOne : ScheduleAIResponse :=
  (processScheduleResult resultPlain reqEmpty uuidOne "2025-02-02").getD emptyResponse

/-- The concrete demo fallback response for the January request. -/
def demoJan : ScheduleAIResponse :=
  (demoSchedule reqJan uuidConst 0).getD emptyResponse

/-- The result object the line extractor produces for a two-line input, spelled
out for use at concrete inputs. -/
def fallbackWitnessResult : RawResult :=
  { activities := some [fallbackActivity 0, fallbackActivity 1]
    summary := some (.jstr "Generated from fallback parsing")
    recommendations := some (.jarr []) }

/-! ### Basic lemmas on the JavaScript value model -/

theorem jsOrD_of_truthy {v : JVal} (d : JVal) (h : v.truthy = true) :
    jsOrD (some v) d = v := by
  simp [jsOrD, h]

theorem jsOrD_truthy_of_default {a : Option JVal} {d : JVal} (h : d.truthy = true) :
    (jsOrD a d).truthy = true := by
  unfold jsOrD
  match a with
  | none => exact h
  | some v =>
    by_cases hv : v.truthy = true
    · simp [hv]
    · simp [Bool.not_eq_true] at hv
      simp [hv, h]

theorem jsOrD_cases (a : Option JVal) (d : JVal) :
    (∃ v, a = some v ∧ v.truthy = true ∧ jsOrD a d = v) ∨ jsOrD a d = d := by
  unfold jsOrD
  match a with
  | none => exact Or.inr rfl
  | some v =>
    by_cases hv : v.truthy = true
    · exact Or.inl ⟨v, rfl, hv, by simp [hv]⟩
    · simp [Bool.not_eq_true] at hv
      simp [hv]

theorem numOr_jnum_zero_default (q : Int) : numOr (some (.jnum q)) 0 = q := by
  unfold numOr toNumberOpt jvalToNumber
  by_cases h : q = 0 <;> simp [h]

theorem numOr_ne_zero {v : Option JVal} {d : Int} (hd : d ≠ 0) : numOr v d ≠ 0 := by
  unfold numOr
  match toNumberOpt v with
  | none => exact hd
  | some q =>
    by_cases h : q = 0 <;> simp [h, hd]

theorem coerceDuration_ne_zero (a : RawActivity) : coerceDuration a ≠ 0 :=
  numOr_ne_zero (by norm_num)

theorem truthy_jstr {s : String} (h : s ≠ "") : (JVal.jstr s).truthy = true := by
  simp [JVal.truthy, h]

theorem parseIsoDate_nonempty {s : String} {d : Int} (h : parseIsoDate s = some d) :
    s ≠ "" := by
  intro he
  subst he
  simp [parseIsoDate] at h

theorem normalizeActivity_some_iff {req : ScheduleAIRequest} {today uuid : String}
    {i : ℕ} {a : RawActivity} {na : ActivityOut} :
    normalizeActivity req today uuid i a = some na ↔
    ∃ fin, finishDateISO (startDateStrOf req today a) (coerceDuration a) = some fin ∧
      na = normalizedActivity req today uuid i a fin := by
  unfold normalizeActivity
  cases h : finishDateISO (startDateStrOf req today a) (coerceDuration a) <;>
    simp [h, eq_comm]

theorem startDateStrOf_truthy {req : ScheduleAIRequest} {today : String}
    {a : RawActivity} {dur : Int} {fin : String}
    (h : finishDateISO (startDateStrOf req today a) dur = some fin) :
    (startDateStrOf req today a).truthy = true := by
  rcases jsOrD_cases (jsOr (jsOr a.earlyStart a.startDate) (req.startDate.map JVal.jstr))
      (.jstr today) with ⟨v, _, ht, heq⟩ | heq
  · unfold startDateStrOf
    rw [heq]
    exact ht
  · unfold startDateStrOf at h ⊢
    rw [heq] at h ⊢
    simp only [finishDateISO, jsNewDate] at h
    rcases hp : parseIsoDate today with _ | d
    · rw [hp] at h; simp at h
    · exact truthy_jstr (parseIsoDate_nonempty hp)

theorem normalizeList_forall₂ {req : ScheduleAIRequest} {today : String}
    {uuids : ℕ → String} {R : RawActivity → ActivityOut → Prop}
    (hR : ∀ uuid i a na, normalizeActivity req today uuid i a = some na → R a na) :
    ∀ {i : ℕ} {l : List RawActivity} {out : List ActivityOut},
      normalizeList req today uuids i l = some out → List.Forall₂ R l out := by
  intro i l
  induction l generalizing i with
  | nil =>
    intro out h
    unfold normalizeList at h
    cases h
    exact .nil
  | cons a rest ih =>
    intro out h
    unfold normalizeList at h
    rcases hna : normalizeActivity req today (uuids i) i a with _ | na <;> rw [hna] at h
    · simp at h
    · rcases htl : normalizeList req today uuids (i + 1) rest with _ | tl <;> rw [htl] at h
      · simp at h
      · simp at h
        subst h
        exact .cons (hR _ _ _ _ hna) (ih htl)

theorem processScheduleResult_some_iff {result : RawResult} {req : ScheduleAIRequest}
    {uuids : ℕ → String} {today : String} {resp : ScheduleAIResponse} :
    processScheduleResult result req uuids today = some resp ↔
    ∃ acts, normalizeList req today uuids 0 (result.activities.getD []) = some acts ∧
      resp = { activities := acts
               summary := jsOrD result.summary
                 (.jstr ("Generated " ++ toString acts.length ++ " activities"))
               criticalPath := (acts.filter (fun a => a.isCritical)).map (fun a => a.activityId)
               recommendations := jsOrD result.recommendations (.jarr []) } := by
  unfold processScheduleResult
  cases h : normalizeList req today uuids 0 (result.activities.getD []) <;>
    simp [h, eq_comm]

theorem append_ne_empty_left {s : String} (t : String) (h : s ≠ "") : s ++ t ≠ "" := by
  intro he
  apply h
  have hl := congrArg String.length he
  rw [String.length_append] at hl
  simp only [String.length_empty, Nat.add_eq_zero] at hl
  exact String.ext (by
    have := hl.1
    cases hs : s.data with
    | nil => rfl
    | cons c cs =>
      exfalso
      simp [String.length, hs] at this)

theorem jsOr_some_truthy {v : JVal} (y : Option JVal) (h : v.truthy = true) :
    jsOr (some v) y = some v := by
  simp [jsOr, truthyOpt, h]

theorem renormalizeActivity {req : ScheduleAIRequest} {today u1 : String} {i : ℕ}
    {a : RawActivity} {na : ActivityOut}
    (h : normalizeActivity req today u1 i a = some na) (u2 : String) :
    normalizeActivity req today u2 i (rawOfOut na) = some { na with id := u2 } := by
  rcases normalizeActivity_some_iff.mp h with ⟨fin, hfin, hna⟩
  subst hna
  have hts : (startDateStrOf req today a).truthy = true := startDateStrOf_truthy hfin
  have hdur : coerceDuration a ≠ 0 := coerceDuration_ne_zero a
  have htsd : (JVal.jnum (coerceDuration a)).truthy = true := by
    simp [JVal.truthy, hdur]
  have hid : (jsOrD a.activityId (.jstr ("A" ++ padNum 3 i))).truthy = true :=
    jsOrD_truthy_of_default (truthy_jstr (append_ne_empty_left _ (by decide)))
  have hnm : (jsOrD (jsOr a.name a.activityName) (.jstr "Unnamed Activity")).truthy = true :=
    jsOrD_truthy_of_default (truthy_jstr (by decide))
  have hst : (jsOrD a.status (.jstr "NotStarted")).truthy = true :=
    jsOrD_truthy_of_default (truthy_jstr (by decide))
  have hwbs : (jsOrD a.wbs (.jstr ("1." ++ toString (i + 1)))).truthy = true :=
    jsOrD_truthy_of_default (truthy_jstr (append_ne_empty_left _ (by decide)))
  have hres : (jsOrD a.resources (.jarr [])).truthy = true :=
    jsOrD_truthy_of_default rfl
  have hproj : rawOfOut (normalizedActivity req today u1 i a fin) =
      { activityId := some (jsOrD a.activityId (.jstr ("A" ++ padNum 3 i)))
        name := some (jsOrD (jsOr a.name a.activityName) (.jstr "Unnamed Activity"))
        activityName := some (jsOrD (jsOr a.name a.activityName) (.jstr "Unnamed Activity"))
        originalDuration := some (.jnum (coerceDuration a))
        duration := some (.jnum (coerceDuration a))
        remainingDuration := some (.jnum (coerceDuration a))
        earlyStart := some (startDateStrOf req today a)
        startDate := some (startDateStrOf req today a)
        finishDate := some (.jstr fin)
        predecessors := some (.jarr (jsArr a.predecessors))
        successors := some (.jarr (jsArr a.successors))
        status := some (jsOrD a.status (.jstr "NotStarted"))
        percentComplete := some (.jnum (numOr a.percentComplete 0))
        totalFloat := some (.jnum (numOr a.totalFloat 0))
        freeFloat := some (.jnum (numOr a.freeFloat 0))
        isCritical := some (.jbool (truthyOpt a.isCritical))
        wbs := some (jsOrD a.wbs (.jstr ("1." ++ toString (i + 1))))
        resources := some (jsOrD a.resources (.jarr []))
        type := some (.jstr "Task") } := rfl
  rw [hproj]
  have hsds2 : startDateStrOf req today
      { activityId := some (jsOrD a.activityId (.jstr ("A" ++ padNum 3 i)))
        name := some (jsOrD (jsOr a.name a.activityName) (.jstr "Unnamed Activity"))
        activityName := some (jsOrD (jsOr a.name a.activityName) (.jstr "Unnamed Activity"))
        originalDuration := some (.jnum (coerceDuration a))
        duration := some (.jnum (coerceDuration a))
        remainingDuration := some (.jnum (coerceDuration a))
        earlyStart := some (startDateStrOf req today a)
        startDate := some (startDateStrOf req today a)
        finishDate := some (.jstr fin)
        predecessors := some (.jarr (jsArr a.predecessors))
        successors := some (.jarr (jsArr a.successors))
        status := some (jsOrD a.status (.jstr "NotStarted"))
        percentComplete := some (.jnum (numOr a.percentComplete 0))
        totalFloat := some (.jnum (numOr a.totalFloat 0))
        freeFloat := some (.jnum (numOr a.freeFloat 0))
        isCritical := some (.jbool (truthyOpt a.isCritical))
        wbs := some (jsOrD a.wbs (.jstr ("1." ++ toString (i + 1))))
        resources := some (jsOrD a.resources (.jarr []))
        type := some (.jstr "Task") } = startDateStrOf req today a := by
    show jsOrD (jsOr (jsOr (some (startDateStrOf req today a)) (some (startDateStrOf req today a)))
        (req.startDate.map JVal.jstr)) (.jstr today) = startDateStrOf req today a
    rw [jsOr_some_truthy _ hts, jsOr_some_truthy _ hts, jsOrD_of_truthy _ hts]
  have hdur2 : coerceDuration
      { activityId := some (jsOrD a.activityId (.jstr ("A" ++ padNum 3 i)))
        name := some (jsOrD (jsOr a.name a.activityName) (.jstr "Unnamed Activity"))
        activityName := some (jsOrD (jsOr a.name a.activityName) (.jstr "Unnamed Activity"))
        originalDuration := some (.jnum (coerceDuration a))
        duration := some (.jnum (coerceDuration a))
        remainingDuration := some (.jnum (coerceDuration a))
        earlyStart := some (startDateStrOf req today a)
        startDate := some (startDateStrOf req today a)
        finishDate := some (.jstr fin)
        predecessors := some (.jarr (jsArr a.predecessors))
        successors := some (.jarr (jsArr a.successors))
        status := some (jsOrD a.status (.jstr "NotStarted"))
        percentComplete := some (.jnum (numOr a.percentComplete 0))
        totalFloat := some (.jnum (numOr a.totalFloat 0))
        freeFloat := some (.jnum (numOr a.freeFloat 0))
        isCritical := some (.jbool (truthyOpt a.isCritical))
        wbs := some (jsOrD a.wbs (.jstr ("1." ++ toString (i + 1))))
        resources := some (jsOrD a.resources (.jarr []))
        type := some (.jstr "Task") } = coerceDuration a := by
    show numOr (jsOr (some (.jnum (coerceDuration a))) (some (.jnum (coerceDuration a)))) 5 =
      coerceDuration a
    rw [jsOr_some_truthy _ htsd]
    show (if coerceDuration a = 0 then 5 else coerceDuration a) = coerceDuration a
    simp [hdur]
  unfold normalizeActivity
  rw [hsds2, hdur2, hfin]
  simp only [Option.map_some']
  congr 1
  simp only [normalizedActivity, hsds2, hdur2]
  simp [jsOrD_of_truthy _ hid, jsOrD_of_truthy _ hnm, jsOrD_of_truthy _ hst,
    jsOrD_of_truthy _ hwbs, jsOrD_of_truthy _ hres, jsOr_some_truthy _ hnm,
    numOr_jnum_zero_default, jsArr, truthyOpt, JVal.truthy]

theorem renormalizeList {req : ScheduleAIRequest} {today : String} {u1 u2 : ℕ → String} :
    ∀ {i : ℕ} {l : List RawActivity} {out : List ActivityOut},
      normalizeList req today u1 i l = some out →
      normalizeList req today u2 i (out.map rawOfOut) =
        some (mapWithIndex (fun j na => { na with id := u2 j }) i out) := by
  intro i l
  induction l generalizing i with
  | nil =>
    intro out h
    unfold normalizeList at h
    cases h
    rfl
  | cons a rest ih =>
    intro out h
    unfold normalizeList at h
    rcases hna : normalizeActivity req today (u1 i) i a with _ | na <;> rw [hna] at h
    · simp at h
    · rcases htl : normalizeList req today u1 (i + 1) rest with _ | tl <;> rw [htl] at h
      · simp at h
      · simp at h
        subst h
        have h1 := renormalizeActivity hna (u2 i)
        have h2 := ih htl
        show normalizeList req today u2 i (rawOfOut na :: tl.map rawOfOut) = _
        unfold normalizeList
        rw [h1, h2]
        rfl

theorem mapWithIndex_id_update_path (u2 : ℕ → String) :
    ∀ (i : ℕ) (acts : List ActivityOut),
      ((mapWithIndex (fun j na => { na with id := u2 j }) i acts).filter
          (fun a => a.isCritical)).map (fun a => a.activityId) =
        (acts.filter (fun a => a.isCritical)).map (fun a => a.activityId) := by
  intro i acts
  induction acts generalizing i with
  | nil => rfl
  | cons a rest ih =>
    show ((List.filter _ ({ a with id := u2 i } :: mapWithIndex _ (i + 1) rest)).map _) = _
    by_cases hc : a.isCritical = true <;>
      simp [List.filter_cons, hc, ih]

theorem demoScheduleFrom_some {uuids : ℕ → String} {nowMs : Int} {sOpt : Option String}
    {r : ScheduleAIResponse} (h : demoScheduleFrom uuids nowMs sOpt = some r) :
    ∃ ss f1 f2 f3, r = demoResponse uuids ss f1 f2 f3 := by
  unfold demoScheduleFrom at h
  rcases sOpt with _ | s
  · simp only [bind, Option.bind_eq_some, Option.pure_def, Option.some.injEq] at h
    obtain ⟨ss, _, f1, _, f2, _, f3, _, hr⟩ := h
    exact ⟨ss, f1, f2, f3, hr.symm⟩
  · simp only [bind, Option.some_bind] at h
    rcases hp : parseIsoDate s with _ | d <;> rw [hp] at h
    · simp at h
    · simp only [bind, Option.map_some, Option.some_bind, Option.bind_eq_some,
        Option.pure_def, Option.some.injEq] at h
      obtain ⟨f1, _, f2, _, f3, _, hr⟩ := h
      exact ⟨s, f1, f2, f3, hr.symm⟩

theorem demoSchedule_some {req : ScheduleAIRequest} {uuids : ℕ → String} {nowMs : Int}
    {r : ScheduleAIResponse} (h : demoSchedule req uuids nowMs = some r) :
    ∃ ss f1 f2 f3, r = demoResponse uuids ss f1 f2 f3 :=
  demoScheduleFrom_some h

/-! ### Claim theorems -/

/-- C3, amended: normalization does not recompute isCritical from the float.
For every parsed result that normalizes without throwing, each produced
activity carries isCritical equal to the JavaScript truthiness of the raw
isCritical field (false when absent), and the returned criticalPath is the
ordered ids of exactly the activities whose isCritical flag is set — not of
the activities with zero total float. -/
theorem criticalPath_follows_isCritical_flag {result : RawResult}
    {req : ScheduleAIRequest} {uuids : ℕ → String} {today : String}
    {resp : ScheduleAIResponse}
    (h : processScheduleResult result req uuids today = some resp) :
    resp.criticalPath =
      (resp.activities.filter (fun a => a.isCritical)).map (fun a => a.activityId) ∧
    List.Forall₂
      (fun (a : RawActivity) (na : ActivityOut) => na.isCritical = truthyOpt a.isCritical)
      (result.activities.getD []) resp.activities := by
  rcases processScheduleResult_some_iff.mp h with ⟨acts, hacts, hresp⟩
  subst hresp
  refine ⟨rfl, ?_⟩
  refine normalizeList_forall₂ ?_ hacts
  intro uuid i a na hna
  rcases normalizeActivity_some_iff.mp hna with ⟨fin, _, hn⟩
  subst hn
  rfl

/-- Witness for criticalPath_follows_isCritical_flag at a concrete one-activity
batch. -/
theorem criticalPath_follows_isCritical_flag_witness :
    processScheduleResult resultCriticalFloat reqEmpty uuidConst "2025-02-02" =
      some (respOf resultCriticalFloat) ∧
    ((respOf resultCriticalFloat).criticalPath =
      (((respOf resultCriticalFloat).activities.filter (fun a => a.isCritical)).map
        (fun a => a.activityId)) ∧
    List.Forall₂
      (fun (a : RawActivity) (na : ActivityOut) => na.isCritical = truthyOpt a.isCritical)
      (resultCriticalFloat.activities.getD []) (respOf resultCriticalFloat).activities) := by
  have hd : processScheduleResult resultCriticalFloat reqEmpty uuidConst "2025-02-02" =
      some (respOf resultCriticalFloat) := rfl
  exact ⟨hd, criticalPath_follows_isCritical_flag hd⟩

/-- Counterexample to C3 as stated: a raw activity with isCritical true and
totalFloat 5 keeps both values through normalization, so the set of critical
ids differs from the set of zero-float ids, and the activity still appears on
the returned criticalPath. -/
theorem criticalPath_not_recomputed_counterexample :
    (processScheduleResult resultCriticalFloat reqEmpty uuidConst "2025-02-02").map
        (fun r => (r.activities.map (fun a => (a.isCritical, a.totalFloat)), r.criticalPath)) =
      some ([(true, 5)], [JVal.jstr "A001"]) ∧
    (5 : Int) ≠ 0 := by
  exact ⟨rfl, by decide⟩

/-- C4, amended: predecessors are coerced but never filtered. For every parsed
result that normalizes without throwing, each produced activity keeps its raw
predecessors array verbatim (or the empty array when the raw field is not an
array); entries that match no activityId in the batch are left dangling. -/
theorem predecessors_kept_verbatim {result : RawResult} {req : ScheduleAIRequest}
    {uuids : ℕ → String} {today : String} {resp : ScheduleAIResponse}
    (h : processScheduleResult result req uuids today = some resp) :
    List.Forall₂
      (fun (a : RawActivity) (na : ActivityOut) => na.predecessors = jsArr a.predecessors)
      (result.activities.getD []) resp.activities := by
  rcases processScheduleResult_some_iff.mp h with ⟨acts, hacts, hresp⟩
  subst hresp
  refine normalizeList_forall₂ ?_ hacts
  intro uuid i a na hna
  rcases normalizeActivity_some_iff.mp hna with ⟨fin, _, hn⟩
  subst hn
  rfl

/-- Witness for predecessors_kept_verbatim at a concrete one-activity batch. -/
theorem predecessors_kept_verbatim_witness :
    processScheduleResult resultDangling reqEmpty uuidConst "2025-02-02" =
      some (respOf resultDangling) ∧
    List.Forall₂
      (fun (a : RawActivity) (na : ActivityOut) => na.predecessors = jsArr a.predecessors)
      (resultDangling.activities.getD []) (respOf resultDangling).activities := by
  have hd : processScheduleResult resultDangling reqEmpty uuidConst "2025-02-02" =
      some (respOf resultDangling) := rfl
  exact ⟨hd, predecessors_kept_verbatim hd⟩

/-- Counterexample to C4 as stated: the batch has a single activity A001 whose
predecessor entry A999 matches no activityId, yet normalization keeps it. -/
theorem dangling_predecessor_kept_counterexample :
    (processScheduleResult resultDangling reqEmpty uuidConst "2025-02-02").map
        (fun r => (r.activities.map (fun a => a.predecessors),
          r.activities.map (fun a => a.activityId))) =
      some ([[JVal.jstr "A999"]], [JVal.jstr "A001"]) ∧
    JVal.jstr "A999" ≠ JVal.jstr "A001" := by
  refine ⟨rfl, ?_⟩
  intro hcontr
  injection hcontr with hs
  exact absurd hs (by decide)

/-- C6, amended: duration coercion takes Number(originalDuration || duration)
and substitutes 5 exactly when that value is missing, non-numeric or zero; the
listed inputs "5", 5, null and "five" (and a missing duration) all give 5, but
the value is not clamped to positive integers — any nonzero number, negative
ones included, is kept as is. -/
theorem duration_coercion_default {req : ScheduleAIRequest} {today uuid : String}
    {i : ℕ} {a : RawActivity} {na : ActivityOut}
    (h : normalizeActivity req today uuid i a = some na) :
    na.duration = coerceDuration a ∧
    coerceDuration { originalDuration := some (.jstr "5") } = 5 ∧
    coerceDuration { originalDuration := some (.jnum 5) } = 5 ∧
    coerceDuration {} = 5 ∧
    coerceDuration { originalDuration := some .jnull } = 5 ∧
    coerceDuration { originalDuration := some (.jstr "five") } = 5 ∧
    ∀ q : Int, q ≠ 0 → coerceDuration { originalDuration := some (.jnum q) } = q := by
  refine ⟨?_, rfl, rfl, rfl, rfl, rfl, ?_⟩
  · rcases normalizeActivity_some_iff.mp h with ⟨fin, _, hn⟩
    subst hn
    rfl
  · intro q hq
    show numOr (jsOr (some (.jnum q)) none) 5 = q
    have ht : truthyOpt (some (.jnum q)) = true := by
      simp [truthyOpt, JVal.truthy, hq]
    rw [jsOr, ht]
    show (if q = 0 then 5 else q) = q
    simp [hq]

/-- Witness for duration_coercion_default at a concrete activity and at the
nonzero value 7. -/
theorem duration_coercion_default_witness :
    normalizeActivity reqEmpty "2025-02-02" "u" 0 rawPlain =
      some ((normalizeActivity reqEmpty "2025-02-02" "u" 0 rawPlain).getD
        (normalizedActivity reqEmpty "2025-02-02" "u" 0 rawPlain "x")) ∧
    ((normalizeActivity reqEmpty "2025-02-02" "u" 0 rawPlain).getD
        (normalizedActivity reqEmpty "2025-02-02" "u" 0 rawPlain "x")).duration =
      coerceDuration rawPlain ∧
    (7 : Int) ≠ 0 ∧
    coerceDuration { originalDuration := some (.jnum 7) } = 7 := by
  have hd : normalizeActivity reqEmpty "2025-02-02" "u" 0 rawPlain =
      some ((normalizeActivity reqEmpty "2025-02-02" "u" 0 rawPlain).getD
        (normalizedActivity reqEmpty "2025-02-02" "u" 0 rawPlain "x")) := rfl
  have h7 : (7 : Int) ≠ 0 := by decide
  exact ⟨hd, (duration_coercion_default hd).1,
    h7, (duration_coercion_default hd).2.2.2.2.2.2 7 h7⟩

/-- Counterexample to C6 as stated: a raw originalDuration of -3 normalizes to
a durationDays of -3, which is not a positive integer. -/
theorem duration_not_positive_counterexample :
    (processScheduleResult resultNegative reqEmpty uuidConst "2025-02-02").map
        (fun r => r.activities.map (fun a => a.duration)) = some [(-3 : Int)] ∧
    ¬ (0 < (-3 : Int)) := by
  exact ⟨rfl, by decide⟩

/-- C7, amended: the finish date is always recomputed from the chosen start
value and the coerced duration by day-of-month arithmetic; an explicitly
supplied raw finish date is never consulted, not even when it is a valid date
at or after the start date. -/
theorem finishDate_always_derived {result : RawResult} {req : ScheduleAIRequest}
    {uuids : ℕ → String} {today : String} {resp : ScheduleAIResponse}
    (h : processScheduleResult result req uuids today = some resp) :
    List.Forall₂
      (fun (a : RawActivity) (na : ActivityOut) =>
        finishDateISO (startDateStrOf req today a) (coerceDuration a) = some na.finishDate)
      (result.activities.getD []) resp.activities ∧
    ∀ (uuid : String) (i : ℕ) (a : RawActivity) (fd : Option JVal),
      normalizeActivity req today uuid i a =
        normalizeActivity req today uuid i { a with finishDate := fd } := by
  constructor
  · rcases processScheduleResult_some_iff.mp h with ⟨acts, hacts, hresp⟩
    subst hresp
    refine normalizeList_forall₂ ?_ hacts
    intro uuid i a na hna
    rcases normalizeActivity_some_iff.mp hna with ⟨fin, hfin, hn⟩
    subst hn
    exact hfin
  · intro uuid i a fd
    rfl

/-- Witness for finishDate_always_derived at a concrete one-activity batch. -/
theorem finishDate_always_derived_witness :
    processScheduleResult resultExplicitFinish reqEmpty uuidConst "2025-02-02" =
      some (respOf resultExplicitFinish) ∧
    List.Forall₂
      (fun (a : RawActivity) (na : ActivityOut) =>
        finishDateISO (startDateStrOf reqEmpty "2025-02-02" a) (coerceDuration a) =
          some na.finishDate)
      (resultExplicitFinish.activities.getD []) (respOf resultExplicitFinish).activities := by
  have hd : processScheduleResult resultExplicitFinish reqEmpty uuidConst "2025-02-02" =
      some (respOf resultExplicitFinish) := rfl
  exact ⟨hd, (finishDate_always_derived hd).1⟩

/-- Counterexample to C7 as stated: the raw activity starts 2025-01-01 with
duration 5 and supplies the explicit finish 2025-03-01, a valid date after the
start; normalization still returns the derived finish 2025-01-06. -/
theorem explicit_finish_ignored_counterexample :
    (processScheduleResult resultExplicitFinish reqEmpty uuidConst "2025-02-02").map
        (fun r => r.activities.map (fun a => a.finishDate)) = some ["2025-01-06"] ∧
    "2025-01-06" ≠ "2025-03-01" ∧
    parseIsoDate "2025-01-01" = some 20089 ∧
    parseIsoDate "2025-03-01" = some 20148 ∧
    (20089 : Int) ≤ 20148 := by
  exact ⟨rfl, by decide, rfl, rfl, by decide⟩

theorem mapWithIndex_length (f : ℕ → α → β) :
    ∀ (i : ℕ) (l : List α), (mapWithIndex f i l).length = l.length := by
  intro i l
  induction l generalizing i with
  | nil => rfl
  | cons a rest ih => simp [mapWithIndex, ih]

/-- C5, amended: re-normalizing a canonical (already-normalized) activity list
reproduces it exactly except for the surrogate id field, which the code
unconditionally overwrites with a fresh crypto.randomUUID() draw on every call;
summary, critical path and recommendations are reproduced unchanged. -/
theorem renormalize_idempotent_mod_ids {result : RawResult} {req : ScheduleAIRequest}
    {u1 u2 : ℕ → String} {today : String} {resp : ScheduleAIResponse}
    (h : processScheduleResult result req u1 today = some resp) :
    processScheduleResult (responseToResult resp) req u2 today =
      some { resp with
             activities := mapWithIndex (fun j na => { na with id := u2 j }) 0 resp.activities } := by
  rcases processScheduleResult_some_iff.mp h with ⟨acts, hacts, hresp⟩
  subst hresp
  have hlist : normalizeList req today u2 0 (acts.map rawOfOut) =
      some (mapWithIndex (fun j na => { na with id := u2 j }) 0 acts) := renormalizeList hacts
  apply processScheduleResult_some_iff.mpr
  refine ⟨mapWithIndex (fun j na => { na with id := u2 j }) 0 acts, ?_, ?_⟩
  · show normalizeList req today u2 0 (acts.map rawOfOut) = _
    exact hlist
  · have hsum : (jsOrD result.summary
        (.jstr ("Generated " ++ toString acts.length ++ " activities"))).truthy = true :=
      jsOrD_truthy_of_default (truthy_jstr
        (append_ne_empty_left " activities"
          (append_ne_empty_left (toString acts.length) (by decide))))
    have hrec : (jsOrD result.recommendations (.jarr [])).truthy = true :=
      jsOrD_truthy_of_default rfl
    simp [responseToResult, ScheduleAIResponse.mk.injEq, mapWithIndex_length,
      jsOrD_of_truthy _ hsum, jsOrD_of_truthy _ hrec, mapWithIndex_id_update_path]

/-- Witness for renormalize_idempotent_mod_ids at a concrete one-activity batch,
with a second uuid supply. -/
theorem renormalize_idempotent_mod_ids_witness :
    processScheduleResult resultPlain reqEmpty uuidOne "2025-02-02" = some respPlainOne ∧
    processScheduleResult (responseToResult respPlainOne) reqEmpty uuidTwo "2025-02-02" =
      some { respPlainOne with
             activities :=
               mapWithIndex (fun j na => { na with id := uuidTwo j }) 0 respPlainOne.activities } := by
  have hd : processScheduleResult resultPlain reqEmpty uuidOne "2025-02-02" =
      some respPlainOne := rfl
  exact ⟨hd, renormalize_idempotent_mod_ids hd⟩

/-- Counterexample to C5 as stated: normalization never reads the incoming id
and re-draws it, so with the successive randomUUID draws modelled by the two
supplies the re-normalized list differs from its input in the id field. -/
theorem renormalize_changes_id_counterexample :
    (processScheduleResult resultPlain reqEmpty uuidOne "2025-02-02").map
        (fun r => r.activities.map (fun a => a.id)) = some ["uuid-one"] ∧
    ((processScheduleResult resultPlain reqEmpty uuidOne "2025-02-02").bind
        (fun r => processScheduleResult (responseToResult r) reqEmpty uuidTwo "2025-02-02")).map
        (fun r => r.activities.map (fun a => a.id)) = some ["uuid-two"] ∧
    "uuid-two" ≠ "uuid-one" := by
  exact ⟨rfl, rfl, by decide⟩

/-- C1, amended: whenever the remote invocation fails and the demo fallback can
build its dates (the request startDate, when truthy, parses as a date; the
clock is in range), generateScheduleWithAI returns exactly the fixed fallback:
A001 Site Preparation (5), A002 Foundation Work (10), A003 Structure Assembly
(15), chained finish-to-start, zero float, all critical, with criticalPath
[A001, A002, A003]. A request whose startDate does not parse instead makes the
fallback construction itself throw. -/
theorem invocation_failure_returns_demo {req : ScheduleAIRequest} (e : Unit)
    (parseResponse : String → Option RawResult) {uuids : ℕ → String} {nowMs : Int}
    {r : ScheduleAIResponse} (h : demoSchedule req uuids nowMs = some r) :
    generateScheduleWithAI req (.error e) parseResponse uuids nowMs = .ok r ∧
    r.activities.map (fun a =>
        (a.activityId, a.activityName, a.duration, a.predecessors, a.totalFloat, a.isCritical)) =
      [(.jstr "A001", .jstr "Site Preparation", 5, [], 0, true),
       (.jstr "A002", .jstr "Foundation Work", 10, [.jstr "A001"], 0, true),
       (.jstr "A003", .jstr "Structure Assembly", 15, [.jstr "A002"], 0, true)] ∧
    r.criticalPath = [.jstr "A001", .jstr "A002", .jstr "A003"] := by
  obtain ⟨ss, f1, f2, f3, hr⟩ := demoSchedule_some h
  subst hr
  refine ⟨?_, rfl, rfl⟩
  unfold generateScheduleWithAI
  rw [h]

/-- Witness for invocation_failure_returns_demo at a concrete request with a
valid start date. -/
theorem invocation_failure_returns_demo_witness :
    demoSchedule reqJan uuidConst 0 = some demoJan ∧
    generateScheduleWithAI reqJan (.error ()) (fun _ => none) uuidConst 0 = .ok demoJan ∧
    demoJan.activities.map (fun a =>
        (a.activityId, a.activityName, a.duration, a.predecessors, a.totalFloat, a.isCritical)) =
      [(.jstr "A001", .jstr "Site Preparation", 5, [], 0, true),
       (.jstr "A002", .jstr "Foundation Work", 10, [.jstr "A001"], 0, true),
       (.jstr "A003", .jstr "Structure Assembly", 15, [.jstr "A002"], 0, true)] ∧
    demoJan.criticalPath = [.jstr "A001", .jstr "A002", .jstr "A003"] := by
  have hd : demoSchedule reqJan uuidConst 0 = some demoJan := rfl
  have hmain := invocation_failure_returns_demo () (fun _ => none) hd
  exact ⟨hd, hmain.1, hmain.2.1, hmain.2.2⟩

/-- Counterexample to C1 as stated: on a request whose startDate is the string
garbage the invocation-failure path does not return the fallback schedule; the
date arithmetic of the fallback throws and the function rethrows the error. -/
theorem invocation_failure_can_throw_counterexample :
    generateScheduleWithAI { startDate := some "garbage" } (.error ()) (fun _ => none)
      uuidConst 0 = .error "Failed to generate schedule" := by
  rfl

/-- C2, amended: the remote invocation error itself is never surfaced — every
outcome is either a result object or the single rethrown exception Error with
message Failed to generate schedule, raised by the outer catch on an internal
error (such as a response with no choices, or normalization hitting an invalid
date); so callers can observe an exception, contrary to the claim. -/
theorem boundary_result_or_single_error (req : ScheduleAIRequest)
    (invoke : Except Unit PoeResponse) (parseResponse : String → Option RawResult)
    (uuids : ℕ → String) (nowMs : Int) :
    (∃ r, generateScheduleWithAI req invoke parseResponse uuids nowMs = .ok r) ∨
    generateScheduleWithAI req invoke parseResponse uuids nowMs =
      .error "Failed to generate schedule" := by
  unfold generateScheduleWithAI recoverOrDiagnose
  repeat' split
  all_goals try dsimp only
  all_goals repeat' split
  all_goals first
    | exact Or.inl ⟨_, rfl⟩
    | exact Or.inr rfl

/-- Counterexample to C2 as stated: a degenerate remote response with an empty
choices array makes the property access throw, and the outer catch rethrows, so
the caller observes an exception instead of a result object. -/
theorem boundary_throws_counterexample :
    generateScheduleWithAI reqEmpty (.ok { choices := [] }) (fun _ => none) uuidConst 0 =
      .error "Failed to generate schedule" := by
  rfl

/-- C8: processing an analyzed document (whose section list is the sorted output
of splitIntoSections) in quick mode with no token ceiling returns exactly the
blank-line-joined concatenation of the contents of the sections scoring above
50, and those sections appear in descending relevance order. -/
theorem quick_mode_selects_high_relevance (fn fp : String) (tsz ttk : ℕ)
    (ki : KeyInformation) (ss : List DocumentSection) (sel : Option (List String)) :
    processContentWithOptions
        { fileName := fn, filePath := fp, totalSize := tsz, totalTokens := ttk,
          sections := sortSections ss, keyInformation := ki }
        { mode := .quick, selectedSections := sel, maxTokens := none } =
      String.intercalate "\n\n"
        (((sortSections ss).filter (fun s => 50 < s.relevanceScore)).map (fun s => s.content)) ∧
    List.Pairwise (fun a b => b.relevanceScore ≤ a.relevanceScore)
      ((sortSections ss).filter (fun s => 50 < s.relevanceScore)) := by
  constructor
  · rfl
  · have hs := @List.sorted_mergeSort DocumentSection
      (fun a b => decide (b.relevanceScore ≤ a.relevanceScore))
      (fun a b c hab hbc => by
        simp only [decide_eq_true_eq] at hab hbc ⊢
        exact le_trans hbc hab)
      (fun a b => by
        rcases Nat.le_total a.relevanceScore b.relevanceScore with h | h <;> simp [h])
      ss
    have hs2 : List.Pairwise (fun a b => b.relevanceScore ≤ a.relevanceScore)
        (sortSections ss) := by
      refine hs.imp ?_
      intro a b hab
      simpa using hab
    exact hs2.sublist (List.filter_sublist _)

/-- C9: every raw status value is mapped onto exactly the three spaced strings,
with the unspaced synonyms mapped to their spaced forms and every other value
(an absent status included) mapped to Not Started; consequently every activity
produced by the triage-integrated normalization carries one of the three. -/
theorem triage_status_total {req : ScheduleAIRequest} {today uuid : String}
    {i : ℕ} {a : RawActivity} {na : ActivityOut}
    (h : normalizeActivityTriage req today uuid i a = some na) :
    (na.status = .jstr "Not Started" ∨ na.status = .jstr "In Progress" ∨
      na.status = .jstr "Completed") ∧
    na.status = .jstr (normalizeStatusV2 a.status) ∧
    normalizeStatusV2 (some (.jstr "NotStarted")) = "Not Started" ∧
    normalizeStatusV2 (some (.jstr "InProgress")) = "In Progress" ∧
    normalizeStatusV2 none = "Not Started" ∧
    (∀ v : Option JVal, v ≠ some (.jstr "Not Started") → v ≠ some (.jstr "In Progress") →
      v ≠ some (.jstr "Completed") → v ≠ some (.jstr "NotStarted") →
      v ≠ some (.jstr "InProgress") → normalizeStatusV2 v = "Not Started") := by
  have hstat : na.status = .jstr (normalizeStatusV2 a.status) := by
    unfold normalizeActivityTriage at h
    rcases Option.map_eq_some'.mp h with ⟨na0, _, hf⟩
    rw [← hf]
  refine ⟨?_, hstat, rfl, rfl, rfl, ?_⟩
  · rw [hstat]
    have hmem : normalizeStatusV2 a.status = "Not Started" ∨
        normalizeStatusV2 a.status = "In Progress" ∨
        normalizeStatusV2 a.status = "Completed" := by
      unfold normalizeStatusV2
      split <;> simp
    rcases hmem with hm | hm | hm <;> rw [hm] <;> simp
  · intro v h1 h2 h3 h4 h5
    unfold normalizeStatusV2
    split <;> first | rfl | simp_all

/-- Witness for triage_status_total at a concrete activity carrying the
unspaced synonym InProgress, plus the default clause at the non-string value 7. -/
theorem triage_status_total_witness :
    normalizeActivityTriage reqEmpty "2025-02-02" "u" 0
        { rawPlain with status := some (.jstr "InProgress") } =
      some ((normalizeActivityTriage reqEmpty "2025-02-02" "u" 0
        { rawPlain with status := some (.jstr "InProgress") }).getD
          (normalizedActivity reqEmpty "2025-02-02" "u" 0 rawPlain "x")) ∧
    ((normalizeActivityTriage reqEmpty "2025-02-02" "u" 0
        { rawPlain with status := some (.jstr "InProgress") }).getD
          (normalizedActivity reqEmpty "2025-02-02" "u" 0 rawPlain "x")).status =
      .jstr (normalizeStatusV2 (some (.jstr "InProgress"))) ∧
    (some (JVal.jnum 7) : Option JVal) ≠ some (.jstr "Not Started") ∧
    normalizeStatusV2 (some (.jnum 7)) = "Not Started" := by
  have hd : normalizeActivityTriage reqEmpty "2025-02-02" "u" 0
      { rawPlain with status := some (.jstr "InProgress") } =
    some ((normalizeActivityTriage reqEmpty "2025-02-02" "u" 0
        { rawPlain with status := some (.jstr "InProgress") }).getD
          (normalizedActivity reqEmpty "2025-02-02" "u" 0 rawPlain "x")) := rfl
  have t := triage_status_total hd
  refine ⟨hd, t.2.1, by simp, ?_⟩
  exact t.2.2.2.2.2 (some (.jnum 7)) (by simp) (by simp) (by simp) (by simp) (by simp)

/-- Positional map at constant functions of the index, expressed through
List.range. -/
theorem mapWithIndex_const {β : Type} (f : ℕ → β) {α : Type} :
    ∀ (l : List α) (i : ℕ),
      mapWithIndex (fun j _ => f j) i l = (List.range l.length).map (fun j => f (i + j)) := by
  intro l
  induction l with
  | nil => intro i; rfl
  | cons a rest ih =>
    intro i
    show f i :: mapWithIndex _ (i + 1) rest = _
    rw [List.length_cons, List.range_succ_eq_map, List.map_cons, List.map_map, ih]
    rw [Nat.add_zero]
    congr 1
    apply List.map_congr_left
    intro j _
    simp only [Function.comp_apply]
    exact congrArg f (by omega)

/-- C10: the last-resort line-marker reconstruction produces at most 20
activities no matter how many activity-like lines the raw text contains, and
position i of the output is exactly the fixed-shape record fallbackActivity i:
id A-prefixed zero-padded i, name Activity i+1, duration 5, predecessors the
previous positional id (none for the first), and isCritical true only at
position 0. -/
theorem extractFallback_bounded {content : String} {r : RawResult}
    (h : extractFallbackScheduleData content = some r) :
    (r.activities.getD []).length ≤ 20 ∧
    r.activities = some ((List.range (r.activities.getD []).length).map fallbackActivity) := by
  unfold extractFallbackScheduleData at h
  dsimp only at h
  split at h
  · injection h with h
    subst h
    refine ⟨?_, ?_⟩
    · show (mapWithIndex (fun i _ => fallbackActivity i) 0 _).length ≤ 20
      rw [mapWithIndex_length]
      exact List.length_take_le _ _
    · show some (mapWithIndex (fun i _ => fallbackActivity i) 0 _) = _
      congr 1
      rw [mapWithIndex_const]
      simp [mapWithIndex_length]
  · exact absurd h (by simp)

/-- Witness for extractFallback_bounded at a two-line input containing the
markers activityId and duration. -/
theorem extractFallback_bounded_witness :
    extractFallbackScheduleData "activityId\nduration" = some fallbackWitnessResult ∧
    ((fallbackWitnessResult.activities.getD []).length ≤ 20 ∧
      fallbackWitnessResult.activities =
        some ((List.range (fallbackWitnessResult.activities.getD []).length).map
          fallbackActivity)) := by
  have hd : extractFallbackScheduleData "activityId\nduration" =
      some fallbackWitnessResult := rfl
  exact ⟨hd, extractFallback_bounded hd⟩

end ScheduleAI
